import Mathlib

/-!
Shallow embedding of the tax-loss-harvesting decision engine
(`models.py` and `logic.py` of the repository) and proofs about it.

Modelling conventions:
- Python floats are embedded as exact rationals (`ℚ`); `round(x, n)` is
  embedded as round-half-to-even at `n` decimal places (`pyRound`).
- `datetime.date` is embedded as an integer day number (`ℤ`);
  `(a - b).days` becomes `a - b` and `a + timedelta(days=n)` becomes `a + n`.
  The `date.isoformat()` rendering inside the block-reason f-string is
  rendered as the decimal representation of that day number.
- Python dicts (insertion ordered, unique keys) are embedded as
  association lists with first-match lookup; `set` membership becomes
  list membership.
- The `ValueError`s raised by the post-assembly validation pass are
  embedded by `build_plan` returning `Except String HarvestPlan`.
- The pydantic `loss_positive` field validator of `models.HarvestItem`
  (it raises at item construction when the rounded loss is negative) is
  embedded by `checkLossDollars`; `build_plan_checked` runs the loop
  with that construction-time check, while `buildPlanRaw`/`build_plan`
  describe the run on which every item construction succeeds. The two
  agree on every run that returns, and the checked run always returns
  when the minimum-loss threshold is non-negative.
-/

namespace TaxHarvest

/-- round-half-to-even on a rational, the rounding mode of Python `round`. -/
def roundHalfEven (x : ℚ) : ℤ :=
  let m := ⌊x⌋
  let f := x - (m : ℚ)
  if f < 1/2 then m
  else if 1/2 < f then m + 1
  else if m % 2 = 0 then m else m + 1

/-- embedding of Python `round(x, n)` for a rational `x`. -/
def pyRound (x : ℚ) (n : ℕ) : ℚ :=
  (roundHalfEven (x * (10 : ℚ) ^ n) : ℚ) / (10 : ℚ) ^ n

/-- `models.TaxLot`. -/
structure TaxLot where
  symbol : String
  shares : ℚ
  buy_date : ℤ
  cost_basis_per_share : ℚ
deriving DecidableEq

/-- `models.RecentBuy`. -/
structure RecentBuy where
  date : ℤ
  symbol : String
  shares : ℚ
deriving DecidableEq

/-- `models.MarketData`: an as-of date and a symbol-to-price mapping. -/
structure MarketData where
  asof : ℤ
  prices : List (String × ℚ)
deriving DecidableEq

/-- `MarketData.price`: dict lookup, `None` when the symbol is absent. -/
def MarketData.price (m : MarketData) (symbol : String) : Option ℚ :=
  (m.prices.find? (fun p => decide (p.1 = symbol))).map (fun p => p.2)

/-- `models.ReplacementPolicy`. -/
structure ReplacementPolicy where
  prohibited_equivalents : List (List String)
  recommended_alternatives : List (String × List String)
deriving DecidableEq

/-- `ReplacementPolicy.cluster_for`: the first declared cluster containing
the symbol, else the singleton of the symbol itself. -/
def ReplacementPolicy.cluster_for (p : ReplacementPolicy) (symbol : String) :
    List String :=
  match p.prohibited_equivalents.find? (fun c => decide (symbol ∈ c)) with
  | some c => c
  | none => [symbol]

/-- embedding of `self.recommended_alternatives.get(symbol, [])`. -/
def ReplacementPolicy.directAlts (p : ReplacementPolicy) (symbol : String) :
    List String :=
  match p.recommended_alternatives.find? (fun e => decide (e.1 = symbol)) with
  | some e => e.2
  | none => []

/-- `ReplacementPolicy.safe_alternatives`: the directly keyed list, with a
first-match fallback scan over the alternatives table when that list is
empty, and a final filter removing alternatives inside the symbol cluster. -/
def ReplacementPolicy.safe_alternatives (p : ReplacementPolicy)
    (symbol : String) : List String :=
  let cluster := p.cluster_for symbol
  let alts :=
    if p.directAlts symbol = [] then
      match p.recommended_alternatives.find?
          (fun e => decide (symbol ∈ p.cluster_for e.1)) with
      | some e => e.2
      | none => []
    else p.directAlts symbol
  alts.filter (fun a => decide (a ∉ cluster))

/-- `models.HarvestItem`. -/
structure HarvestItem where
  symbol : String
  lot_index : ℕ
  shares_to_sell : ℚ
  sale_price : ℚ
  loss_dollars : ℚ
  replacement_symbol : Option String
  replacement_shares : Option ℚ
  replacement_price : Option ℚ
  sale_date : ℤ
  reentry_date_ok_after : ℤ
  wash_sale_blocked : Bool
  block_reason : Option String
  notes : Option String
deriving DecidableEq

/-- `models.HarvestPlan`. -/
structure HarvestPlan where
  asof : ℤ
  items : List HarvestItem
  total_harvestable_loss : ℚ
  simulated_cash_delta : ℚ
  policy_version : String := "demo-1"
deriving DecidableEq

/-- `logic.WashSaleNavigator` configuration. -/
structure Navigator where
  policy : ReplacementPolicy
  min_loss_dollars : ℚ := 200
  min_loss_pct : ℚ := 1/20
deriving DecidableEq

/-- the per-buy condition tested inside `WashSaleNavigator._is_blocked`. -/
def washHit (cluster : List String) (sale_date : ℤ) (rb : RecentBuy) : Bool :=
  decide (rb.symbol ∈ cluster ∧ 0 ≤ sale_date - rb.date ∧ sale_date - rb.date ≤ 30)

/-- the f-string built by `_is_blocked` for a triggering buy. -/
def reasonFor (rb : RecentBuy) : String :=
  "Recent buy on " ++ toString rb.date ++ " for " ++ rb.symbol ++
    " triggers 30-day window"

/-- `WashSaleNavigator._is_blocked`: first matching recent buy blocks. -/
def Navigator.is_blocked (nav : Navigator) (symbol : String) (sale_date : ℤ)
    (buys : List RecentBuy) : Bool × String :=
  let cluster := nav.policy.cluster_for symbol
  match buys.find? (washHit cluster sale_date) with
  | some rb => (true, reasonFor rb)
  | none => (false, "")

/-- the alternative-scanning loop body of `_pick_replacement`; the guard
`px ≠ 0 ∧ px > 0.01` embeds the Python truthiness test `px and px > 0.01`. -/
def pickFrom (proceeds : ℚ) (market : MarketData) :
    List String → Option String × Option ℚ × Option ℚ
  | [] => (none, none, none)
  | alt :: rest =>
    match market.price alt with
    | some px =>
      if px ≠ 0 ∧ px > 1/100 then (some alt, some (proceeds / px), some px)
      else pickFrom proceeds market rest
    | none => pickFrom proceeds market rest

/-- `WashSaleNavigator._pick_replacement`. -/
def Navigator.pick_replacement (nav : Navigator) (symbol : String)
    (proceeds : ℚ) (market : MarketData) :
    Option String × Option ℚ × Option ℚ :=
  pickFrom proceeds market (nav.policy.safe_alternatives symbol)

/-- the loop accumulator of `build_plan`. -/
structure LoopState where
  items : List HarvestItem
  total_loss : ℚ
  cash_delta : ℚ
deriving DecidableEq

/-- the expression `(-pnl if pnl < 0 else 0.0) * lot.shares` of `build_plan`. -/
def lossTotalOf (lot : TaxLot) (px : ℚ) : ℚ :=
  let pnl := px - lot.cost_basis_per_share
  (if pnl < 0 then -pnl else 0) * lot.shares

/-- the loss-percentage expression of `build_plan`, including the
`max(cost_basis, 1e-9)` denominator guard. -/
def lossPctOf (lot : TaxLot) (px : ℚ) : ℚ :=
  if lot.cost_basis_per_share > 0 then
    (lot.cost_basis_per_share - px) / max lot.cost_basis_per_share (1/1000000000)
  else 0

/-- one iteration of the `for idx, lot in enumerate(lots)` loop of
`WashSaleNavigator.build_plan`. -/
def Navigator.processLot (nav : Navigator) (market : MarketData)
    (buys : List RecentBuy) (today : ℤ) (st : LoopState) (idx : ℕ)
    (lot : TaxLot) : LoopState :=
  match market.price lot.symbol with
  | none => st
  | some px =>
    if lossTotalOf lot px < nav.min_loss_dollars ∨
        lossPctOf lot px < nav.min_loss_pct then st
    else
      let wb := nav.is_blocked lot.symbol today buys
      let proceeds := lot.shares * px
      let pick :=
        if wb.1 then ((none : Option String), (none : Option ℚ), (none : Option ℚ))
        else nav.pick_replacement lot.symbol proceeds market
      let blocked := wb.1 || decide (pick.1 = none)
      let reason :=
        if wb.1 then wb.2 else "No safe replacement with known price"
      let item : HarvestItem :=
        { symbol := lot.symbol
          lot_index := idx
          shares_to_sell := pyRound lot.shares 6
          sale_price := px
          loss_dollars := pyRound (lossTotalOf lot px) 2
          replacement_symbol := pick.1
          replacement_shares := pick.2.1.map (fun q => pyRound q 6)
          replacement_price := pick.2.2
          sale_date := today
          reentry_date_ok_after := today + 31
          wash_sale_blocked := blocked
          block_reason := if blocked then some reason else none
          notes := none }
      let st' :=
        if blocked then st
        else
          { st with
              total_loss := st.total_loss + item.loss_dollars
              cash_delta :=
                st.cash_delta + (proceeds - pick.2.1.getD 0 * pick.2.2.getD 0) }
      { st' with items := st'.items ++ [item] }

/-- the whole lot loop of `build_plan`, over index-lot pairs. -/
def Navigator.buildLoop (nav : Navigator) (market : MarketData)
    (buys : List RecentBuy) (today : ℤ) :
    LoopState → List (ℕ × TaxLot) → LoopState
  | st, [] => st
  | st, p :: rest =>
    Navigator.buildLoop nav market buys today
      (nav.processLot market buys today st p.1 p.2) rest

/-- `build_plan` up to (but not including) the sanity-validation pass. -/
def Navigator.buildPlanRaw (nav : Navigator) (lots : List TaxLot)
    (market : MarketData) (buys : List RecentBuy) : HarvestPlan :=
  let today := market.asof
  let st := nav.buildLoop market buys today ⟨[], 0, 0⟩ lots.enum
  { asof := today
    items := st.items
    total_harvestable_loss := pyRound st.total_loss 2
    simulated_cash_delta := pyRound st.cash_delta 2
    policy_version := "demo-1" }

/-- the sanity-validation pass at the end of `build_plan`; the two
`ValueError`s become `Except.error`. -/
def Navigator.validateItems (nav : Navigator) :
    List HarvestItem → Except String Unit
  | [] => .ok ()
  | it :: rest =>
    if it.wash_sale_blocked then nav.validateItems rest
    else if it.replacement_symbol.any
        (fun a => decide (a ∈ nav.policy.cluster_for it.symbol)) then
      .error "Replacement is substantially identical"
    else if it.reentry_date_ok_after - it.sale_date < 31 then
      .error "Re-entry date violates 31-day rule"
    else nav.validateItems rest

/-- `WashSaleNavigator.build_plan`: assemble the plan, then validate.
This variant describes the run on which every `HarvestItem`
construction succeeds; `build_plan_checked` below also models the
pydantic `loss_positive` validator firing at construction time. -/
def Navigator.build_plan (nav : Navigator) (lots : List TaxLot)
    (market : MarketData) (buys : List RecentBuy) : Except String HarvestPlan :=
  let plan := nav.buildPlanRaw lots market buys
  match nav.validateItems plan.items with
  | .ok _ => .ok plan
  | .error e => .error e

/-- the pydantic field validator `loss_positive` of `models.HarvestItem`:
constructing an item with a negative `loss_dollars` raises. -/
def checkLossDollars (v : ℚ) : Except String ℚ :=
  if v < 0 then .error "loss_dollars must be >= 0" else .ok v

/-- one iteration of the `build_plan` loop with the construction-time
`loss_positive` validator modelled: a negative rounded loss aborts the
whole run instead of producing an item. -/
def Navigator.processLotChecked (nav : Navigator) (market : MarketData)
    (buys : List RecentBuy) (today : ℤ) (st : LoopState) (idx : ℕ)
    (lot : TaxLot) : Except String LoopState :=
  match market.price lot.symbol with
  | none => .ok st
  | some px =>
    if lossTotalOf lot px < nav.min_loss_dollars ∨
        lossPctOf lot px < nav.min_loss_pct then .ok st
    else
      let wb := nav.is_blocked lot.symbol today buys
      let proceeds := lot.shares * px
      let pick :=
        if wb.1 then ((none : Option String), (none : Option ℚ), (none : Option ℚ))
        else nav.pick_replacement lot.symbol proceeds market
      let blocked := wb.1 || decide (pick.1 = none)
      let reason :=
        if wb.1 then wb.2 else "No safe replacement with known price"
      match checkLossDollars (pyRound (lossTotalOf lot px) 2) with
      | .error e => .error e
      | .ok ld =>
        let item : HarvestItem :=
          { symbol := lot.symbol
            lot_index := idx
            shares_to_sell := pyRound lot.shares 6
            sale_price := px
            loss_dollars := ld
            replacement_symbol := pick.1
            replacement_shares := pick.2.1.map (fun q => pyRound q 6)
            replacement_price := pick.2.2
            sale_date := today
            reentry_date_ok_after := today + 31
            wash_sale_blocked := blocked
            block_reason := if blocked then some reason else none
            notes := none }
        let st' :=
          if blocked then st
          else
            { st with
                total_loss := st.total_loss + item.loss_dollars
                cash_delta :=
                  st.cash_delta + (proceeds - pick.2.1.getD 0 * pick.2.2.getD 0) }
        .ok { st' with items := st'.items ++ [item] }

/-- the whole lot loop with the construction-time validator modelled. -/
def Navigator.buildLoopChecked (nav : Navigator) (market : MarketData)
    (buys : List RecentBuy) (today : ℤ) :
    LoopState → List (ℕ × TaxLot) → Except String LoopState
  | st, [] => .ok st
  | st, p :: rest =>
    match nav.processLotChecked market buys today st p.1 p.2 with
    | .error e => .error e
    | .ok st2 => Navigator.buildLoopChecked nav market buys today st2 rest

/-- `WashSaleNavigator.build_plan` with the pydantic `loss_positive`
construction check modelled alongside the post-assembly validation. -/
def Navigator.build_plan_checked (nav : Navigator) (lots : List TaxLot)
    (market : MarketData) (buys : List RecentBuy) : Except String HarvestPlan :=
  match nav.buildLoopChecked market buys market.asof ⟨[], 0, 0⟩ lots.enum with
  | .error e => .error e
  | .ok st =>
    let plan : HarvestPlan :=
      { asof := market.asof
        items := st.items
        total_harvestable_loss := pyRound st.total_loss 2
        simulated_cash_delta := pyRound st.cash_delta 2
        policy_version := "demo-1" }
    match nav.validateItems plan.items with
    | .ok _ => .ok plan
    | .error e => .error e

/-! Specification-side definitions, used to state the claims. -/

/-- the per-lot item emitted by one loop iteration (at most one). -/
def Navigator.emitItem (nav : Navigator) (market : MarketData)
    (buys : List RecentBuy) (today : ℤ) (idx : ℕ) (lot : TaxLot) :
    Option HarvestItem :=
  (nav.processLot market buys today ⟨[], 0, 0⟩ idx lot).items.head?

/-- an alternative is usable when its market price is known and
greater than 0.01. -/
def usableB (market : MarketData) (a : String) : Bool :=
  match market.price a with
  | some px => decide (px > 1/100)
  | none => false

/-- replacement selection as the spec words it: the first usable
alternative, its price, and `proceeds / price`. -/
def pickSpec (market : MarketData) (proceeds : ℚ) (alts : List String) :
    Option String × Option ℚ × Option ℚ :=
  match alts.find? (usableB market) with
  | some a =>
    (some a, some (proceeds / (market.price a).getD 0), some ((market.price a).getD 0))
  | none => (none, none, none)

/-- the contribution of one lot to the running `total_loss` accumulator. -/
def Navigator.lossContrib (nav : Navigator) (market : MarketData)
    (buys : List RecentBuy) (lot : TaxLot) : ℚ :=
  match market.price lot.symbol with
  | none => 0
  | some px =>
    if lossTotalOf lot px < nav.min_loss_dollars ∨
        lossPctOf lot px < nav.min_loss_pct then 0
    else if (nav.is_blocked lot.symbol market.asof buys).1 then 0
    else if (nav.pick_replacement lot.symbol (lot.shares * px) market).1 = none then 0
    else pyRound (lossTotalOf lot px) 2

/-- the contribution of one lot to the running `cash_delta` accumulator;
note that it uses the unrounded proceeds and the unrounded replacement
share count. -/
def Navigator.cashContrib (nav : Navigator) (market : MarketData)
    (buys : List RecentBuy) (lot : TaxLot) : ℚ :=
  match market.price lot.symbol with
  | none => 0
  | some px =>
    if lossTotalOf lot px < nav.min_loss_dollars ∨
        lossPctOf lot px < nav.min_loss_pct then 0
    else if (nav.is_blocked lot.symbol market.asof buys).1 then 0
    else
      let pick := nav.pick_replacement lot.symbol (lot.shares * px) market
      if pick.1 = none then 0
      else lot.shares * px - pick.2.1.getD 0 * pick.2.2.getD 0

/-- sum of `loss_dollars` over the non-blocked items of a list. -/
def nonBlockedLossSum (items : List HarvestItem) : ℚ :=
  ((items.filter (fun it => !it.wash_sale_blocked)).map
    (fun it => it.loss_dollars)).sum

/-- the cash delta the spec describes for claim C3: per item, sale
proceeds minus replacement cost computed from the rounded fields stored
on the item. -/
def roundedCashDelta (items : List HarvestItem) : ℚ :=
  ((items.filter (fun it => !it.wash_sale_blocked)).map
    (fun it => it.shares_to_sell * it.sale_price -
      it.replacement_shares.getD 0 * it.replacement_price.getD 0)).sum

/-- a rational that is a whole number of cents. -/
def isCents (x : ℚ) : Prop := ∃ z : ℤ, x = (z : ℚ) / 100

/-! Concrete inputs used by witnesses and counterexamples. -/

/-- a policy with no clusters and a single alternatives entry. -/
def cexPolicy : ReplacementPolicy := ⟨[], [("AAA", ["BBB"])]⟩

/-- a navigator over `cexPolicy` with the default thresholds. -/
def cexNav : Navigator := ⟨cexPolicy, 200, 1/20⟩

/-- a market snapshot pricing the lot symbol at 10 and the replacement
at 30000, chosen so the replacement share count has a repeating decimal. -/
def cexMarket : MarketData := ⟨0, [("AAA", 10), ("BBB", 30000)]⟩

/-- a lot with a 3000-dollar, 75-percent unrealized loss. -/
def cexLot : TaxLot := ⟨"AAA", 100, -10, 40⟩

/-- the item `build_plan` emits for `cexLot` under `cexMarket`. -/
def cexItem : HarvestItem :=
  ⟨"AAA", 0, 100, 10, 3000, some "BBB", some (33333/1000000), some 30000,
    0, 31, false, none, none⟩

/-- a policy with no alternatives at all. -/
def c2Policy : ReplacementPolicy := ⟨[], []⟩

/-- a navigator over `c2Policy` with the default thresholds. -/
def c2Nav : Navigator := ⟨c2Policy, 200, 1/20⟩

/-- a market snapshot pricing only the lot symbol. -/
def c2Market : MarketData := ⟨0, [("AAA", 10)]⟩

/-- the blocked item `build_plan` emits when no replacement exists. -/
def c2Item : HarvestItem :=
  ⟨"AAA", 0, 100, 10, 3000, none, none, none, 0, 31, true,
    some "No safe replacement with known price", none⟩

/-- a recent buy outside the lot symbol cluster. -/
def demoBuy0 : RecentBuy := ⟨95, "ZZZ", 1⟩

/-- the first cluster-matching recent buy, 10 days before the sale. -/
def demoBuy1 : RecentBuy := ⟨90, "VOO", 5⟩

/-- a second cluster-matching recent buy, 2 days before the sale. -/
def demoBuy2 : RecentBuy := ⟨98, "SPY", 2⟩

/-- the demo equivalence clusters from `logic.demo_policy`. -/
def demoClusters : List (List String) :=
  [["SPY", "IVV", "VOO"], ["QQQ", "QQQM"], ["VTI", "ITOT", "SCHB"]]

/-- a policy over the demo clusters. -/
def demoPolicy : ReplacementPolicy :=
  ⟨demoClusters, [("SPY", ["VTI", "SCHX", "ITOT"]), ("QQQ", ["SCHG", "XLK", "IYW"])]⟩

/-- a navigator over `demoPolicy` with the default thresholds. -/
def demoNav : Navigator := ⟨demoPolicy, 200, 1/20⟩

/-- a policy exercising the fallback scan of `safe_alternatives`:
symbol B has no entry of its own but shares a cluster with A. -/
def fbPolicy : ReplacementPolicy := ⟨[["A", "B"]], [("A", ["X"])]⟩

/-- a navigator with a negative minimum-loss threshold, letting a
negative rounded loss pass the threshold filter. -/
def c4Nav : Navigator := ⟨cexPolicy, -10000, 1/20⟩

/-- a lot with a negative share count, making the computed loss
negative so that item construction raises. -/
def c4Lot : TaxLot := ⟨"AAA", -100, -10, 40⟩

end TaxHarvest

namespace TaxHarvest

theorem roundHalfEven_intCast (z : ℤ) : roundHalfEven (z : ℚ) = z := by
  simp only [roundHalfEven, Int.floor_intCast, sub_self]
  norm_num

theorem roundHalfEven_down (x : ℚ) (m : ℤ) (h1 : (m : ℚ) ≤ x)
    (h2 : x < (m : ℚ) + 1/2) : roundHalfEven x = m := by
  have hfl : ⌊x⌋ = m := Int.floor_eq_iff.mpr ⟨h1, by linarith⟩
  have hf : x - (m : ℚ) < 1/2 := by linarith
  simp only [roundHalfEven, hfl]
  rw [if_pos hf]

theorem roundHalfEven_up (x : ℚ) (m : ℤ) (h1 : (m : ℚ) + 1/2 < x)
    (h2 : x ≤ (m : ℚ) + 1) : roundHalfEven x = m + 1 := by
  rcases eq_or_lt_of_le h2 with heq | hlt
  · have hx : x = ((m + 1 : ℤ) : ℚ) := by rw [heq]; push_cast; ring
    rw [hx, roundHalfEven_intCast]
  · have hfl : ⌊x⌋ = m := Int.floor_eq_iff.mpr ⟨by linarith, by linarith⟩
    have hf1 : ¬ (x - (m : ℚ) < 1/2) := by push_neg; linarith
    have hf2 : (1:ℚ)/2 < x - (m : ℚ) := by linarith
    simp only [roundHalfEven, hfl]
    rw [if_neg hf1, if_pos hf2]


theorem isCents_zero : isCents 0 := ⟨0, by norm_num⟩

theorem isCents_add {x y : ℚ} (hx : isCents x) (hy : isCents y) :
    isCents (x + y) := by
  obtain ⟨a, rfl⟩ := hx
  obtain ⟨b, rfl⟩ := hy
  exact ⟨a + b, by push_cast; ring⟩

theorem isCents_sum (l : List ℚ) (h : ∀ x ∈ l, isCents x) :
    isCents l.sum := by
  induction l with
  | nil => simpa using isCents_zero
  | cons a t ih =>
    rw [List.sum_cons]
    exact isCents_add (h a (by simp)) (ih fun x hx => h x (by simp [hx]))

theorem isCents_pyRound (x : ℚ) : isCents (pyRound x 2) :=
  ⟨roundHalfEven (x * (10 : ℚ) ^ (2 : ℕ)), by simp only [pyRound]; norm_num⟩

theorem pyRound_cents (x : ℚ) (h : isCents x) : pyRound x 2 = x := by
  obtain ⟨z, rfl⟩ := h
  have hx : (z : ℚ) / 100 * (10 : ℚ) ^ (2 : ℕ) = (z : ℚ) := by
    norm_num
  simp only [pyRound, hx, roundHalfEven_intCast]
  norm_num

theorem pickFrom_eq_pickSpec (proceeds : ℚ) (market : MarketData) :
    ∀ alts, pickFrom proceeds market alts = pickSpec market proceeds alts := by
  intro alts
  induction alts with
  | nil => rfl
  | cons a rest ih =>
    simp only [pickFrom, pickSpec] at ih ⊢
    cases hpa : market.price a with
    | none =>
      rw [List.find?_cons_of_neg _ (by simp [usableB, hpa])]
      exact ih
    | some px =>
      by_cases hgt : px > 1/100
      · have hcond : px ≠ 0 ∧ px > 1/100 :=
          ⟨by intro h0; rw [h0] at hgt; norm_num at hgt, hgt⟩
        rw [List.find?_cons_of_pos _ (by simp only [usableB, hpa]; exact decide_eq_true hgt)]
        dsimp only
        rw [if_pos hcond]
        simp [hpa]
      · have hcond : ¬ (px ≠ 0 ∧ px > 1/100) := by
          intro hc; exact hgt hc.2
        rw [List.find?_cons_of_neg _
          (by simp only [usableB, hpa, decide_eq_true_eq]; exact hgt)]
        dsimp only
        rw [if_neg hcond]
        exact ih

theorem pickFrom_shape (proceeds : ℚ) (market : MarketData) (alts : List String) :
    pickFrom proceeds market alts = (none, none, none) ∨
      ∃ a px, a ∈ alts ∧ market.price a = some px ∧ px > 1/100 ∧
        pickFrom proceeds market alts = (some a, some (proceeds / px), some px) := by
  rw [pickFrom_eq_pickSpec]
  unfold pickSpec
  cases hf : alts.find? (usableB market) with
  | none => exact Or.inl rfl
  | some a =>
    right
    have hmem := List.mem_of_find?_eq_some hf
    have hu : usableB market a = true := List.find?_some hf
    unfold usableB at hu
    cases hpa : market.price a with
    | none => rw [hpa] at hu; simp at hu
    | some px =>
      rw [hpa] at hu
      have hgt : px > 1/100 := by simpa using hu
      exact ⟨a, px, hmem, hpa, hgt, by simp [hpa]⟩


theorem processLot_action (nav : Navigator) (market : MarketData)
    (buys : List RecentBuy) (today : ℤ) (st : LoopState) (idx : ℕ) (lot : TaxLot) :
    nav.processLot market buys today st idx lot =
      ⟨st.items ++ (nav.processLot market buys today ⟨[], 0, 0⟩ idx lot).items,
       st.total_loss + (nav.processLot market buys today ⟨[], 0, 0⟩ idx lot).total_loss,
       st.cash_delta + (nav.processLot market buys today ⟨[], 0, 0⟩ idx lot).cash_delta⟩ := by
  unfold Navigator.processLot
  cases hpx : market.price lot.symbol with
  | none => cases st; simp
  | some px =>
    dsimp only
    by_cases hth : lossTotalOf lot px < nav.min_loss_dollars ∨
        lossPctOf lot px < nav.min_loss_pct
    · cases st; simp [hth]
    · rw [if_neg hth, if_neg hth]
      cases st with
      | mk i t c =>
        by_cases hb : (nav.is_blocked lot.symbol today buys).1 <;>
          by_cases hpk : (nav.pick_replacement lot.symbol (lot.shares * px) market).1 = none <;>
            simp [hb, hpk]


theorem emitItem_none_of_price (nav : Navigator) (market : MarketData)
    (buys : List RecentBuy) (today : ℤ) (idx : ℕ) (lot : TaxLot)
    (h : market.price lot.symbol = none) :
    nav.emitItem market buys today idx lot = none := by
  unfold Navigator.emitItem Navigator.processLot
  simp [h]

theorem emitItem_none_of_threshold (nav : Navigator) (market : MarketData)
    (buys : List RecentBuy) (today : ℤ) (idx : ℕ) (lot : TaxLot) (px : ℚ)
    (hpx : market.price lot.symbol = some px)
    (hth : lossTotalOf lot px < nav.min_loss_dollars ∨
      lossPctOf lot px < nav.min_loss_pct) :
    nav.emitItem market buys today idx lot = none := by
  unfold Navigator.emitItem Navigator.processLot
  simp [hpx, hth]

theorem emitItem_blocked_wash (nav : Navigator) (market : MarketData)
    (buys : List RecentBuy) (today : ℤ) (idx : ℕ) (lot : TaxLot) (px : ℚ)
    (hpx : market.price lot.symbol = some px)
    (hth : ¬ (lossTotalOf lot px < nav.min_loss_dollars ∨
      lossPctOf lot px < nav.min_loss_pct))
    (hb : (nav.is_blocked lot.symbol today buys).1 = true) :
    nav.emitItem market buys today idx lot =
      some ⟨lot.symbol, idx, pyRound lot.shares 6, px,
        pyRound (lossTotalOf lot px) 2, none, none, none, today, today + 31,
        true, some (nav.is_blocked lot.symbol today buys).2, none⟩ := by
  unfold Navigator.emitItem Navigator.processLot
  simp [hpx, hth, hb]

theorem emitItem_blocked_noRepl (nav : Navigator) (market : MarketData)
    (buys : List RecentBuy) (today : ℤ) (idx : ℕ) (lot : TaxLot) (px : ℚ)
    (hpx : market.price lot.symbol = some px)
    (hth : ¬ (lossTotalOf lot px < nav.min_loss_dollars ∨
      lossPctOf lot px < nav.min_loss_pct))
    (hb : (nav.is_blocked lot.symbol today buys).1 = false)
    (hpk : nav.pick_replacement lot.symbol (lot.shares * px) market =
      (none, none, none)) :
    nav.emitItem market buys today idx lot =
      some ⟨lot.symbol, idx, pyRound lot.shares 6, px,
        pyRound (lossTotalOf lot px) 2, none, none, none, today, today + 31,
        true, some "No safe replacement with known price", none⟩ := by
  unfold Navigator.emitItem Navigator.processLot
  simp [hpx, hth, hb, hpk]

theorem emitItem_repl (nav : Navigator) (market : MarketData)
    (buys : List RecentBuy) (today : ℤ) (idx : ℕ) (lot : TaxLot) (px : ℚ)
    (a : String) (q p : ℚ)
    (hpx : market.price lot.symbol = some px)
    (hth : ¬ (lossTotalOf lot px < nav.min_loss_dollars ∨
      lossPctOf lot px < nav.min_loss_pct))
    (hb : (nav.is_blocked lot.symbol today buys).1 = false)
    (hpk : nav.pick_replacement lot.symbol (lot.shares * px) market =
      (some a, some q, some p)) :
    nav.emitItem market buys today idx lot =
      some ⟨lot.symbol, idx, pyRound lot.shares 6, px,
        pyRound (lossTotalOf lot px) 2, some a, some (pyRound q 6), some p,
        today, today + 31, false, none, none⟩ := by
  unfold Navigator.emitItem Navigator.processLot
  simp [hpx, hth, hb, hpk]


theorem emitItem_cases (nav : Navigator) (market : MarketData)
    (buys : List RecentBuy) (today : ℤ) (idx : ℕ) (lot : TaxLot)
    (it : HarvestItem) (h : nav.emitItem market buys today idx lot = some it) :
    ∃ px, market.price lot.symbol = some px ∧
      ¬ (lossTotalOf lot px < nav.min_loss_dollars ∨
        lossPctOf lot px < nav.min_loss_pct) ∧
      it.symbol = lot.symbol ∧ it.lot_index = idx ∧
      it.shares_to_sell = pyRound lot.shares 6 ∧ it.sale_price = px ∧
      it.loss_dollars = pyRound (lossTotalOf lot px) 2 ∧
      it.sale_date = today ∧ it.reentry_date_ok_after = today + 31 ∧
      ((it.wash_sale_blocked = true ∧ it.replacement_symbol = none ∧
          it.replacement_shares = none ∧ it.replacement_price = none ∧
          (((nav.is_blocked lot.symbol today buys).1 = true ∧
              it.block_reason = some (nav.is_blocked lot.symbol today buys).2) ∨
            ((nav.is_blocked lot.symbol today buys).1 = false ∧
              (nav.pick_replacement lot.symbol (lot.shares * px) market).1 = none ∧
              it.block_reason = some "No safe replacement with known price"))) ∨
        (it.wash_sale_blocked = false ∧
          (nav.is_blocked lot.symbol today buys).1 = false ∧
          it.block_reason = none ∧
          ∃ a p, market.price a = some p ∧ p > 1/100 ∧
            a ∈ nav.policy.safe_alternatives lot.symbol ∧
            nav.pick_replacement lot.symbol (lot.shares * px) market =
              (some a, some (lot.shares * px / p), some p) ∧
            it.replacement_symbol = some a ∧
            it.replacement_shares = some (pyRound (lot.shares * px / p) 6) ∧
            it.replacement_price = some p)) := by
  cases hpx : market.price lot.symbol with
  | none => rw [emitItem_none_of_price nav market buys today idx lot hpx] at h; cases h
  | some px =>
    by_cases hth : lossTotalOf lot px < nav.min_loss_dollars ∨
        lossPctOf lot px < nav.min_loss_pct
    · rw [emitItem_none_of_threshold nav market buys today idx lot px hpx hth] at h
      cases h
    · refine ⟨px, rfl, hth, ?_⟩
      by_cases hb : (nav.is_blocked lot.symbol today buys).1
      · rw [emitItem_blocked_wash nav market buys today idx lot px hpx hth hb] at h
        obtain rfl := (Option.some_inj.mp h).symm
        exact ⟨rfl, rfl, rfl, rfl, rfl, rfl, rfl,
          Or.inl ⟨rfl, rfl, rfl, rfl, Or.inl ⟨hb, rfl⟩⟩⟩
      · have hbf : (nav.is_blocked lot.symbol today buys).1 = false := by
          simpa using hb
        rcases pickFrom_shape (lot.shares * px) market
            (nav.policy.safe_alternatives lot.symbol) with hsh | ⟨a, p, hmem, hpa, hgt, hsh⟩
        · rw [emitItem_blocked_noRepl nav market buys today idx lot px hpx hth hbf
            (by unfold Navigator.pick_replacement; exact hsh)] at h
          obtain rfl := (Option.some_inj.mp h).symm
          exact ⟨rfl, rfl, rfl, rfl, rfl, rfl, rfl,
            Or.inl ⟨rfl, rfl, rfl, rfl, Or.inr ⟨hbf,
              (by unfold Navigator.pick_replacement; rw [hsh]), rfl⟩⟩⟩
        · rw [emitItem_repl nav market buys today idx lot px a
            (lot.shares * px / p) p hpx hth hbf
            (by unfold Navigator.pick_replacement; exact hsh)] at h
          obtain rfl := (Option.some_inj.mp h).symm
          refine ⟨rfl, rfl, rfl, rfl, rfl, rfl, rfl, Or.inr ?_⟩
          exact ⟨rfl, hbf, rfl, a, p, hpa, hgt, hmem,
            (by unfold Navigator.pick_replacement; exact hsh), rfl, rfl, rfl⟩


theorem emitItem_isSome_iff (nav : Navigator) (market : MarketData)
    (buys : List RecentBuy) (today : ℤ) (idx : ℕ) (lot : TaxLot) :
    (nav.emitItem market buys today idx lot).isSome = true ↔
      ∃ px, market.price lot.symbol = some px ∧
        ¬ (lossTotalOf lot px < nav.min_loss_dollars ∨
          lossPctOf lot px < nav.min_loss_pct) := by
  constructor
  · intro h
    obtain ⟨it, hit⟩ := Option.isSome_iff_exists.mp h
    obtain ⟨px, hpx, hth, _⟩ :=
      emitItem_cases nav market buys today idx lot it hit
    exact ⟨px, hpx, hth⟩
  · rintro ⟨px, hpx, hth⟩
    by_cases hb : (nav.is_blocked lot.symbol today buys).1
    · rw [emitItem_blocked_wash nav market buys today idx lot px hpx hth hb]
      rfl
    · have hbf : (nav.is_blocked lot.symbol today buys).1 = false := by
        simpa using hb
      rcases pickFrom_shape (lot.shares * px) market
          (nav.policy.safe_alternatives lot.symbol) with hsh | ⟨a, p, hmem, hpa, hgt, hsh⟩
      · rw [emitItem_blocked_noRepl nav market buys today idx lot px hpx hth hbf
          (by unfold Navigator.pick_replacement; exact hsh)]
        rfl
      · rw [emitItem_repl nav market buys today idx lot px a (lot.shares * px / p)
          p hpx hth hbf (by unfold Navigator.pick_replacement; exact hsh)]
        rfl

theorem processLot_empty_items (nav : Navigator) (market : MarketData)
    (buys : List RecentBuy) (today : ℤ) (idx : ℕ) (lot : TaxLot) :
    (nav.processLot market buys today ⟨[], 0, 0⟩ idx lot).items =
      (nav.emitItem market buys today idx lot).toList := by
  unfold Navigator.emitItem Navigator.processLot
  cases hpx : market.price lot.symbol with
  | none => rfl
  | some px =>
    dsimp only
    by_cases hth : lossTotalOf lot px < nav.min_loss_dollars ∨
        lossPctOf lot px < nav.min_loss_pct
    · rw [if_pos hth]; rfl
    · rw [if_neg hth]
      by_cases hb : (nav.is_blocked lot.symbol today buys).1 <;>
        by_cases hpk : (nav.pick_replacement lot.symbol (lot.shares * px) market).1 = none <;>
          simp [hb, hpk]

theorem processLot_empty_total (nav : Navigator) (market : MarketData)
    (buys : List RecentBuy) (idx : ℕ) (lot : TaxLot) :
    (nav.processLot market buys market.asof ⟨[], 0, 0⟩ idx lot).total_loss =
      nav.lossContrib market buys lot := by
  unfold Navigator.processLot Navigator.lossContrib
  cases hpx : market.price lot.symbol with
  | none => rfl
  | some px =>
    dsimp only
    by_cases hth : lossTotalOf lot px < nav.min_loss_dollars ∨
        lossPctOf lot px < nav.min_loss_pct
    · rw [if_pos hth, if_pos hth]
    · rw [if_neg hth, if_neg hth]
      by_cases hb : (nav.is_blocked lot.symbol market.asof buys).1 <;>
        by_cases hpk : (nav.pick_replacement lot.symbol (lot.shares * px) market).1 = none <;>
          simp [hb, hpk]

theorem processLot_empty_cash (nav : Navigator) (market : MarketData)
    (buys : List RecentBuy) (idx : ℕ) (lot : TaxLot) :
    (nav.processLot market buys market.asof ⟨[], 0, 0⟩ idx lot).cash_delta =
      nav.cashContrib market buys lot := by
  unfold Navigator.processLot Navigator.cashContrib
  cases hpx : market.price lot.symbol with
  | none => rfl
  | some px =>
    dsimp only
    by_cases hth : lossTotalOf lot px < nav.min_loss_dollars ∨
        lossPctOf lot px < nav.min_loss_pct
    · rw [if_pos hth, if_pos hth]
    · rw [if_neg hth, if_neg hth]
      by_cases hb : (nav.is_blocked lot.symbol market.asof buys).1 <;>
        by_cases hpk : (nav.pick_replacement lot.symbol (lot.shares * px) market).1 = none <;>
          simp [hb, hpk]

theorem buildLoop_eq (nav : Navigator) (market : MarketData)
    (buys : List RecentBuy) (today : ℤ) :
    ∀ (ps : List (ℕ × TaxLot)) (st : LoopState),
      nav.buildLoop market buys today st ps =
        ⟨st.items ++ ps.filterMap (fun p => nav.emitItem market buys today p.1 p.2),
         st.total_loss + (ps.map (fun p =>
           (nav.processLot market buys today ⟨[], 0, 0⟩ p.1 p.2).total_loss)).sum,
         st.cash_delta + (ps.map (fun p =>
           (nav.processLot market buys today ⟨[], 0, 0⟩ p.1 p.2).cash_delta)).sum⟩ := by
  intro ps
  induction ps with
  | nil => intro st; cases st; simp [Navigator.buildLoop]
  | cons p rest ih =>
    intro st
    rw [Navigator.buildLoop, ih, processLot_action]
    cases st with
    | mk i t c =>
      cases hemit : nav.emitItem market buys today p.1 p.2 <;>
        simp [List.filterMap_cons, hemit, processLot_empty_items, add_assoc]


theorem enumFrom_map_snd {α β : Type} (f : α → β) :
    ∀ (n : ℕ) (l : List α), (List.enumFrom n l).map (fun p => f p.2) = l.map f := by
  intro n l
  induction l generalizing n with
  | nil => rfl
  | cons a t ih => simp [List.enumFrom, ih]

theorem buildPlanRaw_items (nav : Navigator) (lots : List TaxLot)
    (market : MarketData) (buys : List RecentBuy) :
    (nav.buildPlanRaw lots market buys).items =
      lots.enum.filterMap (fun p => nav.emitItem market buys market.asof p.1 p.2) := by
  unfold Navigator.buildPlanRaw
  dsimp only
  rw [buildLoop_eq]
  simp

theorem buildPlanRaw_total (nav : Navigator) (lots : List TaxLot)
    (market : MarketData) (buys : List RecentBuy) :
    (nav.buildPlanRaw lots market buys).total_harvestable_loss =
      pyRound ((lots.map (nav.lossContrib market buys)).sum) 2 := by
  unfold Navigator.buildPlanRaw
  dsimp only
  rw [buildLoop_eq]
  dsimp only
  rw [zero_add]
  congr 1
  have : ∀ p : ℕ × TaxLot,
      (nav.processLot market buys market.asof ⟨[], 0, 0⟩ p.1 p.2).total_loss =
        nav.lossContrib market buys p.2 :=
    fun p => processLot_empty_total nav market buys p.1 p.2
  calc (lots.enum.map (fun p =>
          (nav.processLot market buys market.asof ⟨[], 0, 0⟩ p.1 p.2).total_loss)).sum
      = (lots.enum.map (fun p => nav.lossContrib market buys p.2)).sum := by
        congr 1; exact List.map_congr_left (fun p _ => this p)
    _ = (lots.map (nav.lossContrib market buys)).sum := by
        rw [List.enum, enumFrom_map_snd]

theorem buildPlanRaw_cash (nav : Navigator) (lots : List TaxLot)
    (market : MarketData) (buys : List RecentBuy) :
    (nav.buildPlanRaw lots market buys).simulated_cash_delta =
      pyRound ((lots.map (nav.cashContrib market buys)).sum) 2 := by
  unfold Navigator.buildPlanRaw
  dsimp only
  rw [buildLoop_eq]
  dsimp only
  rw [zero_add]
  congr 1
  have : ∀ p : ℕ × TaxLot,
      (nav.processLot market buys market.asof ⟨[], 0, 0⟩ p.1 p.2).cash_delta =
        nav.cashContrib market buys p.2 :=
    fun p => processLot_empty_cash nav market buys p.1 p.2
  calc (lots.enum.map (fun p =>
          (nav.processLot market buys market.asof ⟨[], 0, 0⟩ p.1 p.2).cash_delta)).sum
      = (lots.enum.map (fun p => nav.cashContrib market buys p.2)).sum := by
        congr 1; exact List.map_congr_left (fun p _ => this p)
    _ = (lots.map (nav.cashContrib market buys)).sum := by
        rw [List.enum, enumFrom_map_snd]

theorem buildPlanRaw_asof (nav : Navigator) (lots : List TaxLot)
    (market : MarketData) (buys : List RecentBuy) :
    (nav.buildPlanRaw lots market buys).asof = market.asof := rfl

theorem buildPlanRaw_version (nav : Navigator) (lots : List TaxLot)
    (market : MarketData) (buys : List RecentBuy) :
    (nav.buildPlanRaw lots market buys).policy_version = "demo-1" := rfl

theorem safe_alternatives_not_in_cluster (p : ReplacementPolicy) (symbol : String) :
    ∀ a ∈ p.safe_alternatives symbol, a ∉ p.cluster_for symbol := by
  intro a ha
  simp only [ReplacementPolicy.safe_alternatives] at ha
  have := List.of_mem_filter ha
  simpa using this

theorem validateItems_ok (nav : Navigator) (items : List HarvestItem)
    (h : ∀ it ∈ items, it.wash_sale_blocked = false →
      (it.replacement_symbol.any
        (fun a => decide (a ∈ nav.policy.cluster_for it.symbol)) = false) ∧
      ¬ (it.reentry_date_ok_after - it.sale_date < 31)) :
    nav.validateItems items = .ok () := by
  induction items with
  | nil => rfl
  | cons it rest ih =>
    unfold Navigator.validateItems
    by_cases hb : it.wash_sale_blocked
    · rw [if_pos hb]
      exact ih fun x hx => h x (by simp [hx])
    · have hbf : it.wash_sale_blocked = false := by simpa using hb
      obtain ⟨h1, h2⟩ := h it (by simp) hbf
      rw [if_neg hb, if_neg (by simp [h1]), if_neg h2]
      exact ih fun x hx => h x (by simp [hx])

theorem emitted_item_ok (nav : Navigator) (market : MarketData)
    (buys : List RecentBuy) (today : ℤ) (idx : ℕ) (lot : TaxLot)
    (it : HarvestItem) (h : nav.emitItem market buys today idx lot = some it) :
    it.wash_sale_blocked = false →
      (it.replacement_symbol.any
        (fun a => decide (a ∈ nav.policy.cluster_for it.symbol)) = false) ∧
      ¬ (it.reentry_date_ok_after - it.sale_date < 31) := by
  intro hb
  obtain ⟨px, hpx, hth, hsym, hidx, _, _, _, hsale, hre, hbr⟩ :=
    emitItem_cases nav market buys today idx lot it h
  rcases hbr with ⟨hbt, _⟩ | ⟨_, _, _, a, p, hpa, hgt, hmem, hpk, hrs, _, _⟩

  · rw [hbt] at hb; cases hb
  · constructor
    · rw [hrs, hsym]
      have hnc : a ∉ nav.policy.cluster_for lot.symbol :=
        safe_alternatives_not_in_cluster nav.policy lot.symbol a hmem
      simp [hnc]
    · rw [hre, hsale]
      omega

theorem build_plan_ok (nav : Navigator) (lots : List TaxLot)
    (market : MarketData) (buys : List RecentBuy) :
    nav.build_plan lots market buys = .ok (nav.buildPlanRaw lots market buys) := by
  have hv : nav.validateItems (nav.buildPlanRaw lots market buys).items = .ok () := by
    apply validateItems_ok
    intro it hit hb
    rw [buildPlanRaw_items] at hit
    obtain ⟨q, hq, hemit⟩ := List.mem_filterMap.mp hit
    exact emitted_item_ok nav market buys market.asof q.1 q.2 it hemit hb
  unfold Navigator.build_plan
  dsimp only
  rw [hv]


theorem nonBlockedLossSum_append (l1 l2 : List HarvestItem) :
    nonBlockedLossSum (l1 ++ l2) = nonBlockedLossSum l1 + nonBlockedLossSum l2 := by
  simp [nonBlockedLossSum, List.filter_append]

theorem nonBlockedLossSum_emit (nav : Navigator) (market : MarketData)
    (buys : List RecentBuy) (idx : ℕ) (lot : TaxLot) :
    nonBlockedLossSum (nav.emitItem market buys market.asof idx lot).toList =
      nav.lossContrib market buys lot := by
  cases hemit : nav.emitItem market buys market.asof idx lot with
  | none =>
    unfold Navigator.lossContrib
    cases hpx : market.price lot.symbol with
    | none => simp [nonBlockedLossSum]
    | some px =>
      dsimp only
      by_cases hth : lossTotalOf lot px < nav.min_loss_dollars ∨
          lossPctOf lot px < nav.min_loss_pct
      · rw [if_pos hth]; simp [nonBlockedLossSum]
      · exfalso
        have hs := (emitItem_isSome_iff nav market buys market.asof idx lot).mpr
          ⟨px, hpx, hth⟩
        rw [hemit] at hs
        cases hs
  | some it =>
    obtain ⟨px, hpx, hth, hsym, hidx, hsh, hsp, hld, hsd, hre, hbr⟩ :=
      emitItem_cases nav market buys market.asof idx lot it hemit
    unfold Navigator.lossContrib
    rw [hpx]
    dsimp only
    rw [if_neg hth]
    rcases hbr with ⟨hbt, _, _, _, hwhy⟩ | ⟨hbf, hnb, _, a, p, hpa, hgt, hmem, hpk, _, _, _⟩
    · rw [show nonBlockedLossSum (some it).toList = 0 by
        simp [nonBlockedLossSum, hbt]]
      rcases hwhy with ⟨hw, _⟩ | ⟨hw, hpk, _⟩
      · rw [if_pos hw]
      · rw [if_neg (by simp [hw]), if_pos hpk]
    · rw [if_neg (by simp [hnb]), if_neg (by rw [hpk]; simp)]
      simp [nonBlockedLossSum, hbf, hld]

theorem lossSum_enum (nav : Navigator) (market : MarketData)
    (buys : List RecentBuy) (lots : List TaxLot) :
    ∀ n, nonBlockedLossSum ((List.enumFrom n lots).filterMap
        (fun p => nav.emitItem market buys market.asof p.1 p.2)) =
      (lots.map (nav.lossContrib market buys)).sum := by
  induction lots with
  | nil => intro n; simp [nonBlockedLossSum]
  | cons lot rest ih =>
    intro n
    have hflt : (List.enumFrom n (lot :: rest)).filterMap
        (fun p => nav.emitItem market buys market.asof p.1 p.2) =
        (nav.emitItem market buys market.asof n lot).toList ++
          (List.enumFrom (n + 1) rest).filterMap
            (fun p => nav.emitItem market buys market.asof p.1 p.2) := by
      rw [List.enumFrom]
      cases hemit : nav.emitItem market buys market.asof n lot <;>
        simp [List.filterMap_cons, hemit]
    rw [hflt, nonBlockedLossSum_append, nonBlockedLossSum_emit, ih (n + 1)]
    simp

theorem isCents_lossContrib (nav : Navigator) (market : MarketData)
    (buys : List RecentBuy) (lot : TaxLot) :
    isCents (nav.lossContrib market buys lot) := by
  unfold Navigator.lossContrib
  cases market.price lot.symbol with
  | none => exact isCents_zero
  | some px =>
    dsimp only
    split_ifs <;> first
      | exact isCents_zero
      | exact isCents_pyRound _

theorem total_eq_nonBlockedLossSum (nav : Navigator) (lots : List TaxLot)
    (market : MarketData) (buys : List RecentBuy) :
    (nav.buildPlanRaw lots market buys).total_harvestable_loss =
      nonBlockedLossSum (nav.buildPlanRaw lots market buys).items := by
  rw [buildPlanRaw_total, buildPlanRaw_items, List.enum, lossSum_enum]
  apply pyRound_cents
  apply isCents_sum
  intro x hx
  obtain ⟨lot, _, rfl⟩ := List.mem_map.mp hx
  exact isCents_lossContrib nav market buys lot


theorem find?_append_first {α : Type} (p : α → Bool) (l₁ : List α) (a : α)
    (l₂ : List α) (ha : p a = true) (hl : ∀ x ∈ l₁, p x = false) :
    (l₁ ++ a :: l₂).find? p = some a := by
  induction l₁ with
  | nil => simp [List.find?_cons_of_pos _ ha]
  | cons x t ih =>
    rw [List.cons_append, List.find?_cons_of_neg _ (by simp [hl x (by simp)])]
    exact ih fun y hy => hl y (by simp [hy])

theorem lossTotalOf_eq_max (lot : TaxLot) (px : ℚ) :
    lossTotalOf lot px = max 0 (lot.cost_basis_per_share - px) * lot.shares := by
  unfold lossTotalOf
  dsimp only
  by_cases h : px - lot.cost_basis_per_share < 0
  · rw [if_pos h, max_eq_right (by linarith)]
    ring
  · rw [if_neg h, max_eq_left (by linarith)]

theorem pyRound_eq_down (x : ℚ) (n : ℕ) (z : ℤ) (h1 : (z : ℚ) ≤ x * (10 : ℚ) ^ n)
    (h2 : x * (10 : ℚ) ^ n < (z : ℚ) + 1/2) :
    pyRound x n = (z : ℚ) / (10 : ℚ) ^ n := by
  unfold pyRound
  rw [roundHalfEven_down _ z h1 h2]

theorem pyRound_zero : pyRound 0 2 = 0 := pyRound_cents 0 isCents_zero

theorem validate_raw_ok (nav : Navigator) (lots : List TaxLot)
    (market : MarketData) (buys : List RecentBuy) :
    nav.validateItems (nav.buildPlanRaw lots market buys).items = .ok () := by
  apply validateItems_ok
  intro it hit hb
  rw [buildPlanRaw_items] at hit
  obtain ⟨q, hq, hemit⟩ := List.mem_filterMap.mp hit
  exact emitted_item_ok nav market buys market.asof q.1 q.2 it hemit hb


theorem cex_price : cexMarket.price cexLot.symbol = some 10 := by
  simp [cexMarket, cexLot, MarketData.price]

theorem cex_lossTotal : lossTotalOf cexLot 10 = 3000 := by
  unfold lossTotalOf
  simp only [cexLot]
  rw [if_pos (by norm_num)]
  norm_num

theorem cex_lossPct : lossPctOf cexLot 10 = 3/4 := by
  unfold lossPctOf
  simp only [cexLot]
  rw [if_pos (by norm_num), max_eq_left (by norm_num)]
  norm_num

theorem cex_thresholds :
    ¬ (lossTotalOf cexLot 10 < cexNav.min_loss_dollars ∨
      lossPctOf cexLot 10 < cexNav.min_loss_pct) := by
  rw [cex_lossTotal, cex_lossPct]
  simp only [cexNav]
  norm_num

theorem cex_not_blocked : (cexNav.is_blocked cexLot.symbol cexMarket.asof []).1 = false := rfl

theorem cex_safe_alts : cexNav.policy.safe_alternatives cexLot.symbol = ["BBB"] := rfl

theorem cex_pick :
    cexNav.pick_replacement cexLot.symbol (cexLot.shares * 10) cexMarket =
      (some "BBB", some (cexLot.shares * 10 / 30000), some 30000) := by
  unfold Navigator.pick_replacement
  rw [cex_safe_alts]
  unfold pickFrom
  rw [show cexMarket.price "BBB" = some 30000 from rfl]
  dsimp only
  rw [if_pos (by norm_num : (30000 : ℚ) ≠ 0 ∧ (30000 : ℚ) > 1/100)]

theorem cex_pyShares : pyRound cexLot.shares 6 = 100 := by
  rw [show cexLot.shares = (100 : ℚ) from rfl,
    pyRound_eq_down 100 6 100000000 (by norm_num) (by norm_num)]
  norm_num

theorem cex_pyLoss : pyRound (lossTotalOf cexLot 10) 2 = 3000 := by
  rw [cex_lossTotal,
    pyRound_eq_down 3000 2 300000 (by norm_num) (by norm_num)]
  norm_num

theorem cex_pyRepl : pyRound (cexLot.shares * 10 / 30000) 6 = 33333/1000000 := by
  rw [show cexLot.shares = (100 : ℚ) from rfl,
    pyRound_eq_down (100 * 10 / 30000) 6 33333 (by norm_num) (by norm_num)]
  norm_num

theorem cex_emit :
    cexNav.emitItem cexMarket [] cexMarket.asof 0 cexLot = some cexItem := by
  rw [emitItem_repl cexNav cexMarket [] cexMarket.asof 0 cexLot 10 "BBB"
    (cexLot.shares * 10 / 30000) 30000 cex_price cex_thresholds cex_not_blocked cex_pick]
  rw [cex_pyShares, cex_pyLoss, cex_pyRepl]
  rfl

theorem cex_items : (cexNav.buildPlanRaw [cexLot] cexMarket []).items = [cexItem] := by
  rw [buildPlanRaw_items]
  simp [List.enum, List.enumFrom, List.filterMap_cons, cex_emit]

theorem cex_cashContrib : cexNav.cashContrib cexMarket [] cexLot = 0 := by
  unfold Navigator.cashContrib
  rw [cex_price]
  dsimp only
  rw [if_neg cex_thresholds, if_neg (by rw [cex_not_blocked]; simp), cex_pick]
  rw [if_neg (by simp)]
  simp only [Option.getD_some]
  rw [show cexLot.shares = (100 : ℚ) from rfl]
  norm_num

theorem cex_cash : (cexNav.buildPlanRaw [cexLot] cexMarket []).simulated_cash_delta = 0 := by
  rw [buildPlanRaw_cash]
  simp only [List.map_cons, List.map_nil, List.sum_cons, List.sum_nil, cex_cashContrib]
  rw [show (0 : ℚ) + 0 = 0 by norm_num, pyRound_zero]

theorem cex_roundedCash : roundedCashDelta [cexItem] = 1/100 := by
  simp only [roundedCashDelta, cexItem, List.filter, List.map]
  norm_num


theorem c2_price : c2Market.price cexLot.symbol = some 10 := by
  simp [c2Market, cexLot, MarketData.price]

theorem c2_thresholds :
    ¬ (lossTotalOf cexLot 10 < c2Nav.min_loss_dollars ∨
      lossPctOf cexLot 10 < c2Nav.min_loss_pct) := by
  rw [cex_lossTotal, cex_lossPct]
  simp only [c2Nav]
  norm_num

theorem c2_not_blocked : (c2Nav.is_blocked cexLot.symbol c2Market.asof []).1 = false := rfl

theorem c2_safe_alts : c2Nav.policy.safe_alternatives cexLot.symbol = [] := rfl

theorem c2_pick :
    c2Nav.pick_replacement cexLot.symbol (cexLot.shares * 10) c2Market =
      (none, none, none) := by
  unfold Navigator.pick_replacement
  rw [c2_safe_alts]
  rfl

theorem c2_emit :
    c2Nav.emitItem c2Market [] c2Market.asof 0 cexLot = some c2Item := by
  rw [emitItem_blocked_noRepl c2Nav c2Market [] c2Market.asof 0 cexLot 10
    c2_price c2_thresholds c2_not_blocked c2_pick]
  rw [cex_pyShares, cex_pyLoss]
  rfl

theorem c2_items : (c2Nav.buildPlanRaw [cexLot] c2Market []).items = [c2Item] := by
  rw [buildPlanRaw_items]
  simp [List.enum, List.enumFrom, List.filterMap_cons, c2_emit]


theorem roundHalfEven_nonneg (x : ℚ) (h : 0 ≤ x) : 0 ≤ roundHalfEven x := by
  unfold roundHalfEven
  dsimp only
  have hm : (0 : ℤ) ≤ ⌊x⌋ := Int.floor_nonneg.mpr h
  split_ifs <;> omega

theorem pyRound_nonneg (x : ℚ) (n : ℕ) (h : 0 ≤ x) : 0 ≤ pyRound x n := by
  unfold pyRound
  apply div_nonneg
  · exact_mod_cast roundHalfEven_nonneg _ (mul_nonneg h (by positivity))
  · positivity

theorem processLotChecked_ok_of_nonneg (nav : Navigator) (market : MarketData)
    (buys : List RecentBuy) (today : ℤ) (st : LoopState) (idx : ℕ)
    (lot : TaxLot) (h : 0 ≤ nav.min_loss_dollars) :
    nav.processLotChecked market buys today st idx lot =
      .ok (nav.processLot market buys today st idx lot) := by
  unfold Navigator.processLotChecked Navigator.processLot
  cases hpx : market.price lot.symbol with
  | none => rfl
  | some px =>
    dsimp only
    by_cases hth : lossTotalOf lot px < nav.min_loss_dollars ∨
        lossPctOf lot px < nav.min_loss_pct
    · rw [if_pos hth, if_pos hth]
    · rw [if_neg hth, if_neg hth]
      have hnn : 0 ≤ pyRound (lossTotalOf lot px) 2 := by
        push_neg at hth
        exact pyRound_nonneg _ 2 (le_trans h hth.1)
      rw [show checkLossDollars (pyRound (lossTotalOf lot px) 2) =
          .ok (pyRound (lossTotalOf lot px) 2) by
        unfold checkLossDollars; rw [if_neg (not_lt.mpr hnn)]]

theorem processLotChecked_ok_state (nav : Navigator) (market : MarketData)
    (buys : List RecentBuy) (today : ℤ) (st : LoopState) (idx : ℕ)
    (lot : TaxLot) (st2 : LoopState)
    (h : nav.processLotChecked market buys today st idx lot = .ok st2) :
    nav.processLot market buys today st idx lot = st2 := by
  unfold Navigator.processLotChecked at h
  unfold Navigator.processLot
  cases hpx : market.price lot.symbol with
  | none => rw [hpx] at h; exact Except.ok.inj h
  | some px =>
    rw [hpx] at h
    dsimp only at h ⊢
    by_cases hth : lossTotalOf lot px < nav.min_loss_dollars ∨
        lossPctOf lot px < nav.min_loss_pct
    · rw [if_pos hth] at h
      rw [if_pos hth]
      exact Except.ok.inj h
    · rw [if_neg hth] at h
      rw [if_neg hth]
      cases hc : checkLossDollars (pyRound (lossTotalOf lot px) 2) with
      | error e => rw [hc] at h; cases h
      | ok ld =>
        rw [hc] at h
        dsimp only at h
        have hld : ld = pyRound (lossTotalOf lot px) 2 := by
          unfold checkLossDollars at hc
          by_cases hv : pyRound (lossTotalOf lot px) 2 < 0
          · rw [if_pos hv] at hc; cases hc
          · rw [if_neg hv] at hc; exact (Except.ok.inj hc).symm
        rw [hld] at h
        exact Except.ok.inj h

theorem processLotChecked_error (nav : Navigator) (market : MarketData)
    (buys : List RecentBuy) (today : ℤ) (st : LoopState) (idx : ℕ)
    (lot : TaxLot) (px : ℚ) (hpx : market.price lot.symbol = some px)
    (hth : ¬ (lossTotalOf lot px < nav.min_loss_dollars ∨
      lossPctOf lot px < nav.min_loss_pct))
    (hneg : pyRound (lossTotalOf lot px) 2 < 0) :
    nav.processLotChecked market buys today st idx lot =
      .error "loss_dollars must be >= 0" := by
  unfold Navigator.processLotChecked
  rw [hpx]
  dsimp only
  rw [if_neg hth]
  rw [show checkLossDollars (pyRound (lossTotalOf lot px) 2) =
      .error "loss_dollars must be >= 0" by
    unfold checkLossDollars; rw [if_pos hneg]]

theorem buildLoopChecked_ok_state (nav : Navigator) (market : MarketData)
    (buys : List RecentBuy) (today : ℤ) :
    ∀ (ps : List (ℕ × TaxLot)) (st st2 : LoopState),
      nav.buildLoopChecked market buys today st ps = .ok st2 →
      nav.buildLoop market buys today st ps = st2 := by
  intro ps
  induction ps with
  | nil =>
    intro st st2 h
    unfold Navigator.buildLoopChecked at h
    exact Except.ok.inj h
  | cons p rest ih =>
    intro st st2 h
    unfold Navigator.buildLoopChecked at h
    cases hp : nav.processLotChecked market buys today st p.1 p.2 with
    | error e => rw [hp] at h; cases h
    | ok stm =>
      rw [hp] at h
      dsimp only at h
      rw [Navigator.buildLoop,
        processLotChecked_ok_state nav market buys today st p.1 p.2 stm hp]
      exact ih stm st2 h

theorem buildLoopChecked_ok_of_nonneg (nav : Navigator) (market : MarketData)
    (buys : List RecentBuy) (today : ℤ) (h : 0 ≤ nav.min_loss_dollars) :
    ∀ (ps : List (ℕ × TaxLot)) (st : LoopState),
      nav.buildLoopChecked market buys today st ps =
        .ok (nav.buildLoop market buys today st ps) := by
  intro ps
  induction ps with
  | nil => intro st; rfl
  | cons p rest ih =>
    intro st
    unfold Navigator.buildLoopChecked
    rw [processLotChecked_ok_of_nonneg nav market buys today st p.1 p.2 h]
    dsimp only
    rw [Navigator.buildLoop]
    exact ih _

theorem build_plan_checked_ok_plan (nav : Navigator) (lots : List TaxLot)
    (market : MarketData) (buys : List RecentBuy) (plan : HarvestPlan)
    (h : nav.build_plan_checked lots market buys = .ok plan) :
    plan = nav.buildPlanRaw lots market buys := by
  unfold Navigator.build_plan_checked at h
  cases hl : nav.buildLoopChecked market buys market.asof ⟨[], 0, 0⟩ lots.enum with
  | error e => rw [hl] at h; cases h
  | ok st =>
    rw [hl] at h
    dsimp only at h
    cases hv : nav.validateItems st.items with
    | error e => rw [hv] at h; cases h
    | ok u =>
      rw [hv] at h
      dsimp only at h
      have hst : nav.buildLoop market buys market.asof ⟨[], 0, 0⟩ lots.enum = st :=
        buildLoopChecked_ok_state nav market buys market.asof lots.enum ⟨[], 0, 0⟩ st hl
      rw [← Except.ok.inj h]
      unfold Navigator.buildPlanRaw
      dsimp only
      rw [hst]

theorem build_plan_checked_ok_of_nonneg (nav : Navigator) (lots : List TaxLot)
    (market : MarketData) (buys : List RecentBuy) (h : 0 ≤ nav.min_loss_dollars) :
    nav.build_plan_checked lots market buys =
      .ok (nav.buildPlanRaw lots market buys) := by
  unfold Navigator.build_plan_checked
  rw [buildLoopChecked_ok_of_nonneg nav market buys market.asof h lots.enum ⟨[], 0, 0⟩]
  dsimp only
  rw [show nav.validateItems
      (nav.buildLoop market buys market.asof ⟨[], 0, 0⟩ lots.enum).items = .ok () from
    validate_raw_ok nav lots market buys]
  rfl

theorem c4_price : cexMarket.price c4Lot.symbol = some 10 := by
  simp [cexMarket, c4Lot, MarketData.price]

theorem c4_lossTotal : lossTotalOf c4Lot 10 = -3000 := by
  unfold lossTotalOf
  simp only [c4Lot]
  rw [if_pos (by norm_num)]
  norm_num

theorem c4_lossPct : lossPctOf c4Lot 10 = 3/4 := by
  unfold lossPctOf
  simp only [c4Lot]
  rw [if_pos (by norm_num), max_eq_left (by norm_num)]
  norm_num

theorem c4_thresholds :
    ¬ (lossTotalOf c4Lot 10 < c4Nav.min_loss_dollars ∨
      lossPctOf c4Lot 10 < c4Nav.min_loss_pct) := by
  rw [c4_lossTotal, c4_lossPct]
  simp only [c4Nav]
  norm_num

theorem c4_pyLoss : pyRound (lossTotalOf c4Lot 10) 2 = -3000 := by
  rw [c4_lossTotal,
    pyRound_eq_down (-3000) 2 (-300000) (by norm_num) (by norm_num)]
  norm_num

theorem c4_checked_error :
    c4Nav.build_plan_checked [c4Lot] cexMarket [] =
      .error "loss_dollars must be >= 0" := by
  unfold Navigator.build_plan_checked
  rw [show List.enum [c4Lot] = [(0, c4Lot)] from rfl]
  rw [show c4Nav.buildLoopChecked cexMarket [] cexMarket.asof ⟨[], 0, 0⟩
      [(0, c4Lot)] = .error "loss_dollars must be >= 0" by
    unfold Navigator.buildLoopChecked
    rw [processLotChecked_error c4Nav cexMarket [] cexMarket.asof ⟨[], 0, 0⟩
      0 c4Lot 10 c4_price c4_thresholds (by rw [c4_pyLoss]; norm_num)]]

/-- Claim C3 (amended): in every returned plan, `total_harvestable_loss` is
the sum over non-blocked items of the per-item `loss_dollars` (each rounded
to 2 decimal places at item-construction time), but `simulated_cash_delta`
is the rounded sum over non-blocked lots of (unrounded sale proceeds minus
unrounded replacement shares times replacement price): the cash
accumulation uses the unrounded intermediates, not the rounded item
fields. -/
theorem C3_totals_amended (nav : Navigator) (lots : List TaxLot)
    (market : MarketData) (buys : List RecentBuy) (plan : HarvestPlan)
    (h : nav.build_plan lots market buys = .ok plan) :
    plan.total_harvestable_loss = nonBlockedLossSum plan.items ∧
    plan.simulated_cash_delta =
      pyRound ((lots.map (nav.cashContrib market buys)).sum) 2 := by
  have hok := build_plan_ok nav lots market buys
  rw [h] at hok
  obtain rfl : plan = nav.buildPlanRaw lots market buys := Except.ok.inj hok
  exact ⟨total_eq_nonBlockedLossSum nav lots market buys,
    buildPlanRaw_cash nav lots market buys⟩

/-- Claim C3, counterexample to the claim as stated: on a one-lot input the
field `simulated_cash_delta` of the plan is 0, while the sum over non-blocked items of
(sale proceeds minus replacement cost) computed from the rounded item
fields is 1/100: the two disagree, so the accumulation does not use the
already-rounded per-item values. -/
theorem C3_counterexample :
    cexNav.build_plan [cexLot] cexMarket [] =
      .ok (cexNav.buildPlanRaw [cexLot] cexMarket []) ∧
    (cexNav.buildPlanRaw [cexLot] cexMarket []).simulated_cash_delta = 0 ∧
    roundedCashDelta (cexNav.buildPlanRaw [cexLot] cexMarket []).items = 1/100 ∧
    (0 : ℚ) ≠ 1/100 :=
  ⟨build_plan_ok cexNav [cexLot] cexMarket [], cex_cash,
    by rw [cex_items]; exact cex_roundedCash, by norm_num⟩

/-- Claim C3, witness: the amended totals theorem applied to the concrete
one-lot input. -/
theorem C3_witness :
    (cexNav.buildPlanRaw [cexLot] cexMarket []).total_harvestable_loss =
      nonBlockedLossSum (cexNav.buildPlanRaw [cexLot] cexMarket []).items ∧
    (cexNav.buildPlanRaw [cexLot] cexMarket []).simulated_cash_delta =
      pyRound (([cexLot].map (cexNav.cashContrib cexMarket [])).sum) 2 :=
  C3_totals_amended cexNav [cexLot] cexMarket [] _
    (build_plan_ok cexNav [cexLot] cexMarket [])

/-- Claim C4 (amended): the two post-assembly validation branches are
unreachable: the validation pass succeeds on every assembled plan,
whatever `build_plan` returns is the fully assembled plan (never a
partial one), and with a non-negative minimum-loss threshold (the
defaults included) `build_plan` always returns a plan; however, the run
can still abort earlier, at `HarvestItem` construction, when the
pydantic `loss_dollars >= 0` validator fires (reachable only with a
negative threshold together with a negative-share lot). -/
theorem C4_validator_amended (nav : Navigator) (lots : List TaxLot)
    (market : MarketData) (buys : List RecentBuy) :
    nav.validateItems (nav.buildPlanRaw lots market buys).items = .ok () ∧
    (∀ plan, nav.build_plan_checked lots market buys = .ok plan →
      plan = nav.buildPlanRaw lots market buys) ∧
    (0 ≤ nav.min_loss_dollars →
      nav.build_plan_checked lots market buys =
        .ok (nav.buildPlanRaw lots market buys)) :=
  ⟨validate_raw_ok nav lots market buys,
    fun plan h => build_plan_checked_ok_plan nav lots market buys plan h,
    fun h => build_plan_checked_ok_of_nonneg nav lots market buys h⟩

/-- Claim C4, counterexample to the claim as stated: with a negative
minimum-loss threshold and a negative-share lot, `build_plan` aborts at
item construction (the pydantic validator raises), so it does not always
return a plan, even though the post-assembly validation pass itself
would have succeeded. -/
theorem C4_counterexample :
    c4Nav.build_plan_checked [c4Lot] cexMarket [] =
      .error "loss_dollars must be >= 0" ∧
    c4Nav.validateItems (c4Nav.buildPlanRaw [c4Lot] cexMarket []).items = .ok () :=
  ⟨c4_checked_error, validate_raw_ok c4Nav [c4Lot] cexMarket []⟩

/-- Claim C4, witness: with the default thresholds the checked run
returns the assembled plan on the concrete input. -/
theorem C4_witness :
    cexNav.build_plan_checked [cexLot] cexMarket [] =
      .ok (cexNav.buildPlanRaw [cexLot] cexMarket []) :=
  (C4_validator_amended cexNav [cexLot] cexMarket []).2.2 (by norm_num [cexNav])

/-- Claim C5 (amended): in every returned plan, `build_plan` has emitted
exactly one item per lot that passes the price lookup and both loss
thresholds, and none otherwise; the loss used is
`max 0 (cost_basis - price) * shares`, the loss percentage is 0 for
non-positive cost basis, and each emitted item records its source lot.
On an input where a threshold-passing lot has a negative rounded loss,
no plan (and hence no item) is returned at all, the item construction
having aborted the run. -/
theorem C5_threshold_filter_amended (nav : Navigator) (lots : List TaxLot)
    (market : MarketData) (buys : List RecentBuy) (plan : HarvestPlan)
    (h : nav.build_plan_checked lots market buys = .ok plan) :
    plan.items =
      lots.enum.filterMap (fun p => nav.emitItem market buys market.asof p.1 p.2) ∧
    (∀ idx lot, (nav.emitItem market buys market.asof idx lot).isSome = true ↔
      ∃ px, market.price lot.symbol = some px ∧
        nav.min_loss_dollars ≤ max 0 (lot.cost_basis_per_share - px) * lot.shares ∧
        nav.min_loss_pct ≤ lossPctOf lot px) ∧
    (∀ idx lot it, nav.emitItem market buys market.asof idx lot = some it →
      it.lot_index = idx ∧ it.symbol = lot.symbol) ∧
    (∀ lot px, lot.cost_basis_per_share ≤ 0 → lossPctOf lot px = 0) := by
  obtain rfl : plan = nav.buildPlanRaw lots market buys :=
    build_plan_checked_ok_plan nav lots market buys plan h
  refine ⟨buildPlanRaw_items nav lots market buys, ?_, ?_, ?_⟩
  · intro idx lot
    rw [emitItem_isSome_iff]
    constructor
    · rintro ⟨px, hpx, hth⟩
      push_neg at hth
      exact ⟨px, hpx, by rw [← lossTotalOf_eq_max]; exact hth.1, hth.2⟩
    · rintro ⟨px, hpx, h1, h2⟩
      refine ⟨px, hpx, ?_⟩
      push_neg
      exact ⟨by rw [lossTotalOf_eq_max]; exact h1, h2⟩
  · intro idx lot it h
    obtain ⟨px, _, _, hsym, hidx, _⟩ :=
      emitItem_cases nav market buys market.asof idx lot it h
    exact ⟨hidx, hsym⟩
  · intro lot px h
    unfold lossPctOf
    rw [if_neg (not_lt.mpr h)]

/-- Claim C5, counterexample to the claim as stated: the price is known
and both thresholds pass for the lot, yet `build_plan` emits no item for
it: the run aborts at item construction because the rounded loss is
negative, so the emit-iff-thresholds equivalence fails on the program. -/
theorem C5_counterexample :
    c4Nav.build_plan_checked [c4Lot] cexMarket [] =
      .error "loss_dollars must be >= 0" ∧
    cexMarket.price c4Lot.symbol = some 10 ∧
    ¬ (lossTotalOf c4Lot 10 < c4Nav.min_loss_dollars ∨
      lossPctOf c4Lot 10 < c4Nav.min_loss_pct) :=
  ⟨c4_checked_error, c4_price, c4_thresholds⟩

/-- Claim C5, witness: on the concrete returned plan the
threshold-passing lot produces an item. -/
theorem C5_witness :
    (cexNav.emitItem cexMarket [] cexMarket.asof 0 cexLot).isSome = true :=
  ((C5_threshold_filter_amended cexNav [cexLot] cexMarket [] _
      (build_plan_checked_ok_of_nonneg cexNav [cexLot] cexMarket []
        (by norm_num [cexNav]))).2.1 0 cexLot).mpr
    ⟨10, cex_price,
      by rw [← lossTotalOf_eq_max, cex_lossTotal]; norm_num [cexNav],
      by rw [cex_lossPct]; norm_num [cexNav]⟩

/-- Claim C8 (amended): when the input lots list is empty, `build_plan`
returns a plan with no items, zero totals and no validator failure,
whatever the recent-buys list is; an empty recent-buys list alone does not
force an empty plan. -/
theorem C8_empty_lots (nav : Navigator) (market : MarketData)
    (buys : List RecentBuy) :
    nav.build_plan [] market buys = .ok ⟨market.asof, [], 0, 0, "demo-1"⟩ := by
  rw [build_plan_ok]
  have h : nav.buildPlanRaw [] market buys = ⟨market.asof, [], 0, 0, "demo-1"⟩ := by
    unfold Navigator.buildPlanRaw
    dsimp only
    rw [show List.enum ([] : List TaxLot) = [] from rfl,
      show nav.buildLoop market buys market.asof ⟨[], 0, 0⟩ [] = ⟨[], 0, 0⟩ from rfl]
    rw [pyRound_zero]
  rw [h]

/-- Claim C8, counterexample to the claim as stated: the recent-buys list
is empty, yet the returned plan has one item, so an empty recent-buys list
does not imply an empty plan. -/
theorem C8_counterexample :
    cexNav.build_plan [cexLot] cexMarket [] =
      .ok (cexNav.buildPlanRaw [cexLot] cexMarket []) ∧
    (cexNav.buildPlanRaw [cexLot] cexMarket []).items = [cexItem] ∧
    ([cexItem] : List HarvestItem) ≠ [] :=
  ⟨build_plan_ok cexNav [cexLot] cexMarket [], cex_items, by simp⟩


/-- Claim C6: `safe_alternatives` returns the directly keyed list when
non-empty, otherwise the first list (declaration order) of a symbol whose
cluster contains the query symbol; in all cases alternatives inside the
query symbol cluster are filtered out, and an empty result is possible. -/
theorem C6_safe_alternatives_spec (p : ReplacementPolicy) (symbol : String) :
    (∀ a ∈ p.safe_alternatives symbol, a ∉ p.cluster_for symbol) ∧
    (p.directAlts symbol ≠ [] →
      p.safe_alternatives symbol =
        (p.directAlts symbol).filter (fun a => decide (a ∉ p.cluster_for symbol))) ∧
    (p.directAlts symbol = [] →
      ∀ l₁ e l₂, p.recommended_alternatives = l₁ ++ e :: l₂ →
        symbol ∈ p.cluster_for e.1 →
        (∀ e2 ∈ l₁, symbol ∉ p.cluster_for e2.1) →
        p.safe_alternatives symbol =
          e.2.filter (fun a => decide (a ∉ p.cluster_for symbol))) ∧
    (p.directAlts symbol = [] →
      (∀ e ∈ p.recommended_alternatives, symbol ∉ p.cluster_for e.1) →
      p.safe_alternatives symbol = []) := by
  refine ⟨safe_alternatives_not_in_cluster p symbol, ?_, ?_, ?_⟩
  · intro h
    unfold ReplacementPolicy.safe_alternatives
    dsimp only
    rw [if_neg h]
  · intro h l₁ e l₂ hdec hmem hfirst
    unfold ReplacementPolicy.safe_alternatives
    dsimp only
    rw [if_pos h, hdec, find?_append_first _ l₁ e l₂ (decide_eq_true hmem)
      (fun x hx => decide_eq_false (hfirst x hx))]
  · intro h hall
    unfold ReplacementPolicy.safe_alternatives
    dsimp only
    rw [if_pos h, List.find?_eq_none.mpr (fun x hx => by simpa using hall x hx)]
    rfl

/-- Claim C6, witness: the fallback case on a concrete policy where B has
no entry of its own and borrows the list declared for A. -/
theorem C6_witness :
    fbPolicy.safe_alternatives "B" =
      (["X"] : List String).filter (fun a => decide (a ∉ fbPolicy.cluster_for "B")) :=
  (C6_safe_alternatives_spec fbPolicy "B").2.2.1 rfl [] ("A", ["X"]) [] rfl
    (by decide) (fun e2 he2 => absurd he2 (List.not_mem_nil e2))

/-- Claim C7: every emitted item carries the market as-of date as its sale
date and a re-entry date exactly 31 days later, hence at least 31 days
after the sale, blocked or not. -/
theorem C7_reentry_dates (nav : Navigator) (lots : List TaxLot)
    (market : MarketData) (buys : List RecentBuy) (plan : HarvestPlan)
    (h : nav.build_plan lots market buys = .ok plan) :
    ∀ it ∈ plan.items, it.sale_date = market.asof ∧
      it.reentry_date_ok_after = market.asof + 31 ∧
      31 ≤ it.reentry_date_ok_after - it.sale_date := by
  have hok := build_plan_ok nav lots market buys
  rw [h] at hok
  obtain rfl : plan = nav.buildPlanRaw lots market buys := Except.ok.inj hok
  intro it hit
  rw [buildPlanRaw_items] at hit
  obtain ⟨q, hq, hemit⟩ := List.mem_filterMap.mp hit
  obtain ⟨px, _, _, _, _, _, _, _, hsd, hre, _⟩ :=
    emitItem_cases nav market buys market.asof q.1 q.2 it hemit
  refine ⟨hsd, hre, ?_⟩
  rw [hsd, hre]
  omega

/-- Claim C7, witness: the dates theorem applied to the item of the
concrete one-lot plan. -/
theorem C7_witness :
    cexItem.sale_date = cexMarket.asof ∧
    cexItem.reentry_date_ok_after = cexMarket.asof + 31 ∧
    31 ≤ cexItem.reentry_date_ok_after - cexItem.sale_date :=
  C7_reentry_dates cexNav [cexLot] cexMarket [] _
    (build_plan_ok cexNav [cexLot] cexMarket []) cexItem
    (by rw [cex_items]; simp)

/-- Claim C9: in every returned plan, an item is wash-sale-blocked exactly
when it has a block reason; non-blocked items carry all three replacement
fields and blocked items carry none. -/
theorem C9_item_consistency (nav : Navigator) (lots : List TaxLot)
    (market : MarketData) (buys : List RecentBuy) (plan : HarvestPlan)
    (h : nav.build_plan lots market buys = .ok plan) :
    ∀ it ∈ plan.items,
      (it.wash_sale_blocked = true ↔ it.block_reason ≠ none) ∧
      (it.wash_sale_blocked = false →
        it.replacement_symbol.isSome = true ∧
        it.replacement_shares.isSome = true ∧
        it.replacement_price.isSome = true) ∧
      (it.wash_sale_blocked = true →
        it.replacement_symbol = none ∧ it.replacement_shares = none ∧
        it.replacement_price = none) := by
  have hok := build_plan_ok nav lots market buys
  rw [h] at hok
  obtain rfl : plan = nav.buildPlanRaw lots market buys := Except.ok.inj hok
  intro it hit
  rw [buildPlanRaw_items] at hit
  obtain ⟨q, hq, hemit⟩ := List.mem_filterMap.mp hit
  obtain ⟨px, _, _, _, _, _, _, _, _, _, hbr⟩ :=
    emitItem_cases nav market buys market.asof q.1 q.2 it hemit
  rcases hbr with ⟨hbt, hrs, hrsh, hrp, hwhy⟩ |
    ⟨hbf, _, hreason, a, p, _, _, _, _, hrs, hrsh, hrp⟩
  · refine ⟨?_, ?_, ?_⟩
    · constructor
      · intro _
        rcases hwhy with ⟨_, hr⟩ | ⟨_, _, hr⟩ <;> simp [hr]
      · intro _; exact hbt
    · intro hf; rw [hbt] at hf; cases hf
    · intro _; exact ⟨hrs, hrsh, hrp⟩
  · refine ⟨?_, ?_, ?_⟩
    · constructor
      · intro ht; rw [hbf] at ht; cases ht
      · intro hr; rw [hreason] at hr; cases hr rfl
    · intro _; rw [hrs, hrsh, hrp]; exact ⟨rfl, rfl, rfl⟩
    · intro ht; rw [hbf] at ht; cases ht

/-- Claim C9, witness: the consistency theorem applied to the non-blocked
item of the concrete plan. -/
theorem C9_witness :
    cexItem.replacement_symbol.isSome = true ∧
    cexItem.replacement_shares.isSome = true ∧
    cexItem.replacement_price.isSome = true :=
  (C9_item_consistency cexNav [cexLot] cexMarket [] _
    (build_plan_ok cexNav [cexLot] cexMarket []) cexItem
    (by rw [cex_items]; simp)).2.1 rfl

/-- Claim C10: every emitted item proposes selling the whole lot: the item
sale quantity is the full lot share count rounded to 6 places, and both
replacement sizing and the cash-delta contribution use the full unrounded
proceeds `shares * price`. -/
theorem C10_whole_lot (nav : Navigator) (lots : List TaxLot)
    (market : MarketData) (buys : List RecentBuy) :
    (nav.buildPlanRaw lots market buys).items =
      lots.enum.filterMap (fun p => nav.emitItem market buys market.asof p.1 p.2) ∧
    (∀ idx lot it, nav.emitItem market buys market.asof idx lot = some it →
      it.shares_to_sell = pyRound lot.shares 6 ∧
      ∀ px, market.price lot.symbol = some px →
        it.sale_price = px ∧
        (it.wash_sale_blocked = false →
          ∃ p, it.replacement_price = some p ∧
            it.replacement_shares = some (pyRound (lot.shares * px / p) 6) ∧
            nav.cashContrib market buys lot =
              lot.shares * px - lot.shares * px / p * p)) ∧
    (nav.buildPlanRaw lots market buys).simulated_cash_delta =
      pyRound ((lots.map (nav.cashContrib market buys)).sum) 2 := by
  refine ⟨buildPlanRaw_items nav lots market buys, ?_,
    buildPlanRaw_cash nav lots market buys⟩
  intro idx lot it hemit
  obtain ⟨px0, hpx0, hth, hsym, hidx, hsh, hsp, _, _, _, hbr⟩ :=
    emitItem_cases nav market buys market.asof idx lot it hemit
  refine ⟨hsh, ?_⟩
  intro px hpx
  obtain rfl : px = px0 := by
    rw [hpx] at hpx0
    exact Option.some_inj.mp hpx0
  refine ⟨hsp, ?_⟩
  intro hbf
  rcases hbr with ⟨hbt, _⟩ |
    ⟨_, hnb, _, a, p, hpa, hgt, hmem, hpk, hrs, hrsh, hrp⟩
  · rw [hbt] at hbf; cases hbf
  · refine ⟨p, hrp, hrsh, ?_⟩
    unfold Navigator.cashContrib
    rw [hpx0]
    dsimp only
    rw [if_neg hth, if_neg (by rw [hnb]; simp), hpk]
    rw [if_neg (by simp)]
    simp only [Option.getD_some]

/-- Claim C10, witness: the whole-lot theorem applied to the concrete
item, whose sale quantity is the rounded full lot share count. -/
theorem C10_witness :
    cexItem.shares_to_sell = pyRound cexLot.shares 6 :=
  (((C10_whole_lot cexNav [cexLot] cexMarket []).2.1) 0 cexLot cexItem cex_emit).1


/-- Claim C1: the wash-sale test blocks exactly when some recent buy lies
in the lot symbol cluster with a date within 30 days before the sale date
(both endpoints inclusive); the reported reason belongs to the first such
buy in input order, and a threshold-passing lot whose wash-sale test fires
is emitted blocked with that reason. -/
theorem C1_wash_sale_window (nav : Navigator) (market : MarketData)
    (buys : List RecentBuy) (symbol : String) (d : ℤ) :
    ((nav.is_blocked symbol d buys).1 = true ↔
      ∃ rb ∈ buys, rb.symbol ∈ nav.policy.cluster_for symbol ∧
        0 ≤ d - rb.date ∧ d - rb.date ≤ 30) ∧
    (∀ l₁ rb l₂, buys = l₁ ++ rb :: l₂ →
      (rb.symbol ∈ nav.policy.cluster_for symbol ∧
        0 ≤ d - rb.date ∧ d - rb.date ≤ 30) →
      (∀ rb2 ∈ l₁, ¬ (rb2.symbol ∈ nav.policy.cluster_for symbol ∧
        0 ≤ d - rb2.date ∧ d - rb2.date ≤ 30)) →
      nav.is_blocked symbol d buys = (true, reasonFor rb)) ∧
    (∀ idx lot it, nav.emitItem market buys market.asof idx lot = some it →
      (nav.is_blocked lot.symbol market.asof buys).1 = true →
      it.wash_sale_blocked = true ∧
      it.block_reason = some (nav.is_blocked lot.symbol market.asof buys).2) := by
  refine ⟨?_, ?_, ?_⟩
  · unfold Navigator.is_blocked
    dsimp only
    cases hf : buys.find? (washHit (nav.policy.cluster_for symbol) d) with
    | none =>
      dsimp only
      constructor
      · intro h; exact absurd h (by simp)
      · rintro ⟨rb, hmem, hcond⟩
        have hne := List.find?_eq_none.mp hf rb hmem
        unfold washHit at hne
        exact absurd (decide_eq_true hcond) hne
    | some rb =>
      dsimp only
      constructor
      · intro _
        have hw := List.find?_some hf
        unfold washHit at hw
        exact ⟨rb, List.mem_of_find?_eq_some hf, of_decide_eq_true hw⟩
      · intro _; rfl
  · intro l₁ rb l₂ hbuys hcond hfirst
    unfold Navigator.is_blocked
    dsimp only
    rw [hbuys, find?_append_first (washHit (nav.policy.cluster_for symbol) d)
      l₁ rb l₂ (by unfold washHit; exact decide_eq_true hcond)
      (fun x hx => by unfold washHit; exact decide_eq_false (hfirst x hx))]
  · intro idx lot it hemit hb
    obtain ⟨px, _, _, _, _, _, _, _, _, _, hbr⟩ :=
      emitItem_cases nav market buys market.asof idx lot it hemit
    rcases hbr with ⟨hbt, _, _, _, hwhy⟩ | ⟨_, hnb, _⟩
    · rcases hwhy with ⟨_, hr⟩ | ⟨hw, _, _⟩
      · exact ⟨hbt, hr⟩
      · rw [hw] at hb; cases hb
    · rw [hnb] at hb; cases hb

/-- Claim C1, witness: with one non-matching and two matching recent buys,
the test blocks and reports the first matching buy. -/
theorem C1_witness :
    demoNav.is_blocked "SPY" 100 [demoBuy0, demoBuy1, demoBuy2] =
      (true, reasonFor demoBuy1) :=
  (C1_wash_sale_window demoNav cexMarket [demoBuy0, demoBuy1, demoBuy2]
    "SPY" 100).2.1 [demoBuy0] demoBuy1 [demoBuy2] rfl (by decide) (by decide)

/-- Claim C2 (amended): replacement selection picks the first ranked safe
alternative whose market price is known and greater than 0.01, sizing the
replacement as proceeds divided by its price; when no alternative is
usable the item is still emitted, blocked, with reason
"No safe replacement with known price" (the code capitalizes the first
word of the reason). -/
theorem C2_replacement_selection (nav : Navigator) (market : MarketData)
    (buys : List RecentBuy) :
    (∀ symbol proceeds, nav.pick_replacement symbol proceeds market =
      pickSpec market proceeds (nav.policy.safe_alternatives symbol)) ∧
    (∀ idx lot it px, nav.emitItem market buys market.asof idx lot = some it →
      market.price lot.symbol = some px →
      it.wash_sale_blocked = false →
      ∃ a p, (nav.policy.safe_alternatives lot.symbol).find? (usableB market) =
          some a ∧
        market.price a = some p ∧ p > 1/100 ∧
        it.replacement_symbol = some a ∧ it.replacement_price = some p ∧
        it.replacement_shares = some (pyRound (lot.shares * px / p) 6)) ∧
    (∀ idx lot it, nav.emitItem market buys market.asof idx lot = some it →
      (nav.is_blocked lot.symbol market.asof buys).1 = false →
      (nav.policy.safe_alternatives lot.symbol).find? (usableB market) = none →
      it.wash_sale_blocked = true ∧
      it.block_reason = some "No safe replacement with known price") := by
  refine ⟨?_, ?_, ?_⟩
  · intro symbol proceeds
    unfold Navigator.pick_replacement
    exact pickFrom_eq_pickSpec proceeds market _
  · intro idx lot it px hemit hpx hbf
    obtain ⟨px0, hpx0, _, _, _, _, _, _, _, _, hbr⟩ :=
      emitItem_cases nav market buys market.asof idx lot it hemit
    obtain rfl : px = px0 := by
      rw [hpx] at hpx0
      exact Option.some_inj.mp hpx0
    rcases hbr with ⟨hbt, _⟩ |
      ⟨_, _, _, a, p, hpa, hgt, hmem, hpk, hrs, hrsh, hrp⟩
    · rw [hbt] at hbf; cases hbf
    · refine ⟨a, p, ?_, hpa, hgt, hrs, hrp, hrsh⟩
      have hps := hpk
      rw [show nav.pick_replacement lot.symbol (lot.shares * px) market =
          pickSpec market (lot.shares * px)
            (nav.policy.safe_alternatives lot.symbol) from
        pickFrom_eq_pickSpec _ _ _] at hps
      unfold pickSpec at hps
      cases hfind : (nav.policy.safe_alternatives lot.symbol).find?
          (usableB market) with
      | none => rw [hfind] at hps; cases hps
      | some a2 =>
        rw [hfind] at hps
        dsimp only at hps
        rw [Option.some_inj]
        have h1 : some a2 = some a := congrArg Prod.fst hps
        exact Option.some_inj.mp h1
  · intro idx lot it hemit hbf hfind
    obtain ⟨px0, hpx0, hth, _, _, _, _, _, _, _, hbr⟩ :=
      emitItem_cases nav market buys market.asof idx lot it hemit
    rcases hbr with ⟨hbt, _, _, _, hwhy⟩ |
      ⟨_, _, _, a, p, hpa, hgt, hmem, hpk, _, _, _⟩
    · rcases hwhy with ⟨hw, _⟩ | ⟨_, _, hr⟩
      · rw [hw] at hbf; cases hbf
      · exact ⟨hbt, hr⟩
    · exfalso
      have hps := hpk
      rw [show nav.pick_replacement lot.symbol (lot.shares * px0) market =
          pickSpec market (lot.shares * px0)
            (nav.policy.safe_alternatives lot.symbol) from
        pickFrom_eq_pickSpec _ _ _] at hps
      unfold pickSpec at hps
      rw [hfind] at hps
      cases hps

/-- Claim C2, counterexample to the exact reason string of the claim: the
emitted blocked item carries the capitalized reason, which differs from
the lowercase string the claim quotes. -/
theorem C2_counterexample :
    c2Nav.build_plan [cexLot] c2Market [] =
      .ok (c2Nav.buildPlanRaw [cexLot] c2Market []) ∧
    (c2Nav.buildPlanRaw [cexLot] c2Market []).items = [c2Item] ∧
    c2Item.block_reason = some "No safe replacement with known price" ∧
    (some "No safe replacement with known price" : Option String) ≠
      some "no safe replacement with known price" :=
  ⟨build_plan_ok c2Nav [cexLot] c2Market [], c2_items, rfl, by decide⟩

/-- Claim C2, witness: the no-usable-replacement branch applied to the
concrete input with an empty alternatives table. -/
theorem C2_witness :
    c2Item.wash_sale_blocked = true ∧
    c2Item.block_reason = some "No safe replacement with known price" :=
  (C2_replacement_selection c2Nav c2Market []).2.2 0 cexLot c2Item c2_emit
    c2_not_blocked (by rw [c2_safe_alts]; rfl)

end TaxHarvest
